import Mathlib

/-!
# Expense tracker

A shallow embedding of `Expense-Tracker.go` and of the parts of the Go standard
library it calls (`strconv.ParseFloat`, `strconv.FormatFloat`, `time.Parse`,
`Time.Format`, `encoding/csv`), followed by theorems about the ledger, the report
and the CSV export and import.

Conventions: a Go `string` is a list of characters; console output is the list
of texts printed, in order; an operation that creates a file returns its name
and content.  The text of a Go `error` value, which the program prints after the
fixed beginning of an error line, is not modelled: such a line is represented by
its fixed beginning.
-/

set_option exponentiation.threshold 4096

namespace ExpenseTracker

/-! ## Go strings -/

/-- A Go `string`, read as its sequence of characters (valid UTF-8 text). -/
abbrev Str := List Char

/-! ## float64 -/

/-- A `float64` value.  `fin neg m e` denotes `(-1)^neg * m * 2^e`; the
functions below only build canonical triples (`m < 2^53`, `-1074 ≤ e ≤ 971`,
and `2^52 ≤ m` unless `e = -1074`), so equal values are equal terms. -/
inductive Float64 where
  | nan
  | inf (neg : Bool)
  | fin (neg : Bool) (mant : Nat) (exp : Int)
  deriving DecidableEq

namespace Float64

/-- The constant `0.0`. -/
def zero : Float64 := fin false 0 (-1074)

/-- The first of the exponents `k`, `2k`, `4k`, ... with `n < 2^k`. -/
def expBound : Nat → Nat → Nat → Nat
  | 0, _, k => k
  | fuel + 1, n, k => if n < 2 ^ k then k else expBound fuel n (2 * k)

/-- Bisection between `lo` and `hi`, where `2^lo ≤ n < 2^hi`: the exponent `k`
with `2^(k-1) ≤ n < 2^k`. -/
def bitLenBisect : Nat → Nat → Nat → Nat → Nat
  | 0, _, _, hi => hi
  | fuel + 1, n, lo, hi =>
    if hi ≤ lo + 1 then hi
    else if n < 2 ^ ((lo + hi) / 2) then bitLenBisect fuel n lo ((lo + hi) / 2)
    else bitLenBisect fuel n ((lo + hi) / 2) hi

/-- Number of binary digits of `n` (`0` for `0`). -/
def bitLen (n : Nat) : Nat :=
  if n = 0 then 0 else bitLenBisect n n 0 (expBound n n 1)

/-- Quotient of `num / den` scaled by `2^(-e)`, as numerator and denominator. -/
def scaled (num den : Nat) (e : Int) : Nat × Nat :=
  if e < 0 then (num * 2 ^ e.natAbs, den) else (num, den * 2 ^ e.toNat)

/-- Round the quotient `n / d` to the nearest integer, ties to even. -/
def roundHalfEven (n d : Nat) : Nat :=
  let q := n / d
  let r := n % d
  if 2 * r > d ∨ (2 * r = d ∧ q % 2 = 1) then q + 1 else q

/-- IEEE 754 binary64 rounding (nearest, ties to even) of the non-negative
rational `num / den` with the given sign; the flag reports overflow. -/
def round (neg : Bool) (num den : Nat) : Float64 × Bool :=
  if num = 0 ∨ den = 0 then (fin neg 0 (-1074), false) else
  -- k0 is within one of floor(log2 (num/den))
  let k0 : Int := (bitLen num : Int) - (bitLen den : Int)
  let s := scaled num den k0
  let k : Int := if s.1 < s.2 then k0 - 1 else k0
  let e : Int := max (-1074) (k - 52)
  let t := scaled num den e
  let m := roundHalfEven t.1 t.2
  let (m, e) := if m = 2 ^ 53 then (2 ^ 52, e + 1) else (m, e)
  if e > 971 then (inf neg, true) else (fin neg m e, false)

/-- Negation (sign flip). -/
def neg : Float64 → Float64
  | nan => nan
  | inf s => inf (!s)
  | fin s m e => fin (!s) m e

/-- Numerator of a finite magnitude over the common denominator `2^1074`. -/
def units (m : Nat) (e : Int) : Nat := m * 2 ^ (e + 1074).toNat

/-- IEEE 754 addition, the Go `+` on `float64`. -/
def add : Float64 → Float64 → Float64
  | nan, _ => nan
  | _, nan => nan
  | inf s, inf t => if s = t then inf s else nan
  | inf s, fin _ _ _ => inf s
  | fin _ _ _, inf t => inf t
  | fin s m e, fin t n f =>
    let a := units m e
    let b := units n f
    if s = t then (round s (a + b) (2 ^ 1074)).1
    else if a = b then fin false 0 (-1074)
    else if b < a then (round s (a - b) (2 ^ 1074)).1
    else (round t (b - a) (2 ^ 1074)).1

/-- IEEE 754 subtraction, the Go `-` on `float64`. -/
def sub (x y : Float64) : Float64 := add x (neg y)

instance : Add Float64 := ⟨add⟩
instance : Sub Float64 := ⟨sub⟩

/-- The float64 nearest to the rational `num / den`, with the given sign. -/
def nearest (neg : Bool) (num den : Nat) : Float64 := (round neg num den).1

end Float64


/-! ## strconv -/

/-- The two error kinds of `strconv.NumError`. -/
inductive NumError where
  | ErrSyntax
  | ErrRange
  deriving DecidableEq

/-- ASCII lower-casing of upper-case letters, as in `commonPrefixLenIgnoreCase`. -/
def asciiLower (c : Char) : Char :=
  if 'A' ≤ c ∧ c ≤ 'Z' then Char.ofNat (c.toNat + 32) else c

/-- Whether `c` is an ASCII decimal digit. -/
def isDigitChar (c : Char) : Bool := decide ('0' ≤ c ∧ c ≤ '9')

/-- Whether `c` is one of `a`..`f`, `A`..`F`. -/
def isHexLetter (c : Char) : Bool := decide (('a' ≤ c ∧ c ≤ 'f') ∨ ('A' ≤ c ∧ c ≤ 'F'))

/-- Value of a decimal digit character. -/
def digitVal (c : Char) : Nat := c.toNat - 48

/-- Value of a hexadecimal letter. -/
def hexLetterVal (c : Char) : Nat := (asciiLower c).toNat - 87

/-- Length of the common prefix of `s` and the lower-case word `w`, ignoring
the case of `s` (`commonPrefixLenIgnoreCase`). -/
def commonPrefixLenIgnoreCase : Str → Str → Nat
  | c :: s, p :: w => if asciiLower c = p then commonPrefixLenIgnoreCase s w + 1 else 0
  | _, _ => 0

/-- The part of `special` after the optional sign: the length of the accepted
spelling of infinity, if any. -/
def infLen (s : Str) : Option Nat :=
  let n := commonPrefixLenIgnoreCase s "infinity".toList
  let n := if 3 < n ∧ n < 8 then 3 else n
  if n = 3 ∨ n = 8 then some n else none

/-- The function `special` of strconv: NaN and the infinities, with the number of
characters consumed. -/
def special : Str → Option (Float64 × Nat)
  | [] => none
  | '+' :: s => (infLen s).map fun n => (Float64.inf false, n + 1)
  | '-' :: s => (infLen s).map fun n => (Float64.inf true, n + 1)
  | c :: s =>
    if c = 'i' ∨ c = 'I' then (infLen (c :: s)).map fun n => (Float64.inf false, n)
    else if c = 'n' ∨ c = 'N' then
      if commonPrefixLenIgnoreCase (c :: s) "nan".toList = 3 then some (Float64.nan, 3) else none
    else none

/-- Loop state of the mantissa scan in `readFloat`. -/
structure Digits where
  mant : Nat
  nd : Nat
  dp : Int
  sawdot : Bool
  sawdigits : Bool
  underscores : Bool
  deriving DecidableEq

/-- The mantissa loop of `readFloat`; the mantissa is kept exactly (strconv keeps
19 digits and a truncation flag, or re-reads the digits, to the same rounding). -/
def readDigits (hex : Bool) : Str → Digits → Digits × Str
  | [], st => (st, [])
  | c :: cs, st =>
    if c = '_' then readDigits hex cs { st with underscores := true }
    else if c = '.' then
      if st.sawdot then (st, c :: cs)
      else readDigits hex cs { st with sawdot := true, dp := st.nd }
    else if isDigitChar c then
      if c = '0' ∧ st.nd = 0 then
        readDigits hex cs { st with sawdigits := true, dp := st.dp - 1 }
      else
        readDigits hex cs { st with sawdigits := true, nd := st.nd + 1,
                                    mant := st.mant * (if hex then 16 else 10) + digitVal c }
    else if hex ∧ isHexLetter c then
      readDigits hex cs { st with sawdigits := true, nd := st.nd + 1,
                                  mant := st.mant * 16 + hexLetterVal c }
    else (st, c :: cs)

/-- The exponent-digit loop of `readFloat`: digits and underscores, the value
no longer growing once it has reached 10000. -/
def readExpDigits : Str → Nat → Bool → Nat × Bool × Str
  | [], e, u => (e, u, [])
  | c :: cs, e, u =>
    if c = '_' then readExpDigits cs e true
    else if isDigitChar c then readExpDigits cs (if e < 10000 then e * 10 + digitVal c else e) u
    else (e, u, c :: cs)

/-- The digit scan of `underscoreOK`; `saw` is the class of the last character:
`'^'` start, `'0'` digit or base prefix, `'_'` underscore, `'!'` other. -/
def underscoreScan (hex : Bool) : Str → Char → Bool
  | [], saw => saw ≠ '_'
  | c :: cs, saw =>
    if isDigitChar c ∨ (hex ∧ isHexLetter c) then underscoreScan hex cs '0'
    else if c = '_' then (if saw ≠ '0' then false else underscoreScan hex cs '_')
    else if saw = '_' then false
    else underscoreScan hex cs '!'

/-- The function `underscoreOK` of strconv: underscores only between digits or
between a base prefix and a digit. -/
def underscoreOK (s : Str) : Bool :=
  let s := match s with
    | '+' :: t => t
    | '-' :: t => t
    | t => t
  match s with
  | '0' :: c :: t =>
    let l := asciiLower c
    if l = 'b' ∨ l = 'o' ∨ l = 'x' then underscoreScan (l = 'x') t '0'
    else underscoreScan false s '^'
  | _ => underscoreScan false s '^'

/-- What `readFloat` extracts: sign, exact mantissa, and the power of the base
(10, or 2 for hexadecimal input) that scales it. -/
structure FloatLit where
  neg : Bool
  mant : Nat
  exp : Int
  hex : Bool
  deriving DecidableEq

/-- The function `readFloat` of strconv: the literal read from a prefix of `s`
and the unread rest, or `none` when no well-formed literal starts `s`. -/
def readFloat (s : Str) : Option (FloatLit × Str) :=
  let (neg, s1) := match s with
    | '+' :: t => (false, t)
    | '-' :: t => (true, t)
    | t => (false, t)
  let (hex, s2) := match s1 with
    | '0' :: x :: c :: t => if x = 'x' ∨ x = 'X' then (true, c :: t) else (false, s1)
    | _ => (false, s1)
  let (d, s3) := readDigits hex s2 ⟨0, 0, 0, false, false, false⟩
  if ¬ d.sawdigits then none else
  let dp0 : Int := if d.sawdot then d.dp else d.nd
  let dp1 : Int := if hex then dp0 * 4 else dp0
  let nd1 : Int := if hex then (d.nd : Int) * 4 else d.nd
  let finish (dp : Int) (u : Bool) (rest : Str) : Option (FloatLit × Str) :=
    if u ∧ ¬ underscoreOK (s.take (s.length - rest.length)) then none
    else some (⟨neg, d.mant, dp - nd1, hex⟩, rest)
  match s3 with
  | c :: t =>
    if (hex ∧ (c = 'p' ∨ c = 'P')) ∨ (¬ hex ∧ (c = 'e' ∨ c = 'E')) then
      let (esign, t1) : Int × Str := match t with
        | '+' :: r => (1, r)
        | '-' :: r => (-1, r)
        | r => (1, r)
      match t1 with
      | [] => none
      | c1 :: _ =>
        if ¬ isDigitChar c1 then none else
        let (e, u, rest) := readExpDigits t1 0 d.underscores
        finish (dp1 + e * esign) u rest
    else if hex then none
    else finish dp1 d.underscores s3
  | [] => if hex then none else finish dp1 d.underscores s3

/-- The float64 nearest to the literal, with the overflow flag. -/
def FloatLit.toFloat64 (l : FloatLit) : Float64 × Bool :=
  let b : Nat := if l.hex then 2 else 10
  if l.exp < 0 then Float64.round l.neg l.mant (b ^ l.exp.natAbs)
  else Float64.round l.neg (l.mant * b ^ l.exp.toNat) 1

/-- Model of `strconv.ParseFloat(s, 64)`: the value and the error, both of which
Go returns.  A syntax error comes with the value `0`, a range error with an
infinity. -/
def ParseFloat (s : Str) : Float64 × Option NumError :=
  match special s with
  | some (v, n) => if n = s.length then (v, none) else (Float64.zero, some .ErrSyntax)
  | none =>
    match readFloat s with
    | none => (Float64.zero, some .ErrSyntax)
    | some (l, rest) =>
      if rest ≠ [] then (Float64.zero, some .ErrSyntax)
      else
        let r := l.toFloat64
        (r.1, if r.2 then some .ErrRange else none)

/-- Decimal digits of `n`, most significant first, by dividing at most `fuel` times. -/
def decDigitsAux : Nat → Nat → Str → Str
  | 0, _, acc => acc
  | fuel + 1, n, acc =>
    let acc := Char.ofNat (48 + n % 10) :: acc
    if n / 10 = 0 then acc else decDigitsAux fuel (n / 10) acc

/-- Decimal digits of `n` (`"0"` for `0`). -/
def decDigits (n : Nat) : Str := decDigitsAux (n + 1) n []

/-- Zero-pad `s` on the left to at least `w` characters. -/
def padZeros (w : Nat) (s : Str) : Str := List.replicate (w - s.length) '0' ++ s

/-- Model of `strconv.FormatFloat(f, 'f', prec, 64)`: the exact value rounded to
`prec` decimals, ties to even. -/
def FormatFloat (f : Float64) (prec : Nat) : Str :=
  match f with
  | .nan => "NaN".toList
  | .inf false => "+Inf".toList
  | .inf true => "-Inf".toList
  | .fin s m e =>
    let t := Float64.scaled (m * 10 ^ prec) 1 (-e)
    let n := Float64.roundHalfEven t.1 t.2
    (if s then ['-'] else []) ++ decDigits (n / 10 ^ prec) ++
      (if prec = 0 then [] else '.' :: padZeros prec (decDigits (n % 10 ^ prec)))


/-! ## time -/

/-- A `time.Time`: the instant as seconds since 1970-01-01 00:00:00 UTC plus
nanoseconds, and the offset east of UTC (in seconds) that the value's location
has at that instant (`0` for UTC).  The monotonic clock reading is left out. -/
structure Time where
  unix : Int
  nsec : Nat
  offset : Int
  deriving DecidableEq

/-- Days since 1970-01-01 of a proleptic Gregorian date. -/
def daysFromCivil (y : Int) (m d : Nat) : Int :=
  let y := if m ≤ 2 then y - 1 else y
  let era := y / 400
  let yoe := y - era * 400
  let mp : Int := if m > 2 then (m : Int) - 3 else (m : Int) + 9
  let doy := (153 * mp + 2) / 5 + (d : Int) - 1
  let doe := yoe * 365 + yoe / 4 - yoe / 100 + doy
  era * 146097 + doe - 719468

/-- Proleptic Gregorian year, month and day of a day number since 1970-01-01. -/
def civilFromDays (z : Int) : Int × Nat × Nat :=
  let z := z + 719468
  let era := z / 146097
  let doe := z - era * 146097
  let yoe := (doe - doe / 1460 + doe / 36524 - doe / 146096) / 365
  let y := yoe + era * 400
  let doy := doe - (365 * yoe + yoe / 4 - yoe / 100)
  let mp := (5 * doy + 2) / 153
  let d := doy - (153 * mp + 2) / 5 + 1
  let m := if mp < 10 then mp + 3 else mp - 9
  (if m ≤ 2 then y + 1 else y, m.toNat, d.toNat)

/-- Leap years of the Gregorian calendar. -/
def isLeap (y : Int) : Bool := decide (y % 4 = 0 ∧ (y % 100 ≠ 0 ∨ y % 400 = 0))

/-- Number of days of month `m` in year `y` (`daysIn`). -/
def daysIn (m : Nat) (y : Int) : Nat :=
  if m = 2 then (if isLeap y then 29 else 28)
  else if m = 4 ∨ m = 6 ∨ m = 9 ∨ m = 11 then 30 else 31

/-- The function `appendInt`: sign, then the digits zero-padded to `width`. -/
def appendInt (x : Int) (width : Nat) : Str :=
  (if x < 0 then ['-'] else []) ++ padZeros width (decDigits x.natAbs)

/-- Model of `t.Format("2006-01-02 15:04:05")`: the civil date and time of `t`
in its location, to the second. -/
def Time.Format (t : Time) : Str :=
  let abs := t.unix + t.offset
  let days := abs / 86400
  let rem := (abs % 86400).toNat
  let date := civilFromDays days
  appendInt date.1 4 ++ '-' :: padZeros 2 (decDigits date.2.1) ++ '-' :: padZeros 2 (decDigits date.2.2) ++
    ' ' :: padZeros 2 (decDigits (rem / 3600)) ++ ':' :: padZeros 2 (decDigits (rem % 3600 / 60)) ++
    ':' :: padZeros 2 (decDigits (rem % 60))

/-- The function `getnum` of package time: one or two digits, exactly two when `fixed`. -/
def getnum (s : Str) (fixed : Bool) : Option (Nat × Str) :=
  match s with
  | a :: b :: rest =>
    if ¬ isDigitChar a then none
    else if isDigitChar b then some (digitVal a * 10 + digitVal b, rest)
    else if fixed then none else some (digitVal a, b :: rest)
  | [a] => if isDigitChar a ∧ ¬ fixed then some (digitVal a, []) else none
  | [] => none

/-- The four-digit year of layout element `2006`. -/
def getYear (s : Str) : Option (Nat × Str) :=
  match s with
  | a :: b :: c :: d :: rest =>
    if isDigitChar a ∧ isDigitChar b ∧ isDigitChar c ∧ isDigitChar d then
      some (digitVal a * 1000 + digitVal b * 100 + digitVal c * 10 + digitVal d, rest)
    else none
  | _ => none

/-- Expect the literal character `c` of the layout (`skip` on a non-space prefix). -/
def skipChar (c : Char) (s : Str) : Option Str :=
  match s with
  | a :: rest => if a = c then some rest else none
  | [] => none

/-- The function `cutspace`: drop leading spaces. -/
def cutspace : Str → Str
  | ' ' :: rest => cutspace rest
  | s => s

/-- The function `skip` on the layout's single space: the value must not start
with another character; every leading space is consumed. -/
def skipSpace (s : Str) : Option Str :=
  match s with
  | [] => some []
  | a :: _ => if a ≠ ' ' then none else some (cutspace s)

/-- Value of a digit string, most significant first. -/
def digitsVal (s : Str) : Nat := s.foldl (fun acc c => acc * 10 + digitVal c) 0

/-- A fractional second in the value that the layout does not mention is
accepted after the seconds: a period or comma and digits, of which the first
nine count (`parseNanoseconds`). -/
def fracSecond (s : Str) : Nat × Str :=
  match s with
  | p :: a :: rest =>
    if (p = '.' ∨ p = ',') ∧ isDigitChar a then
      let ds := (a :: rest).takeWhile isDigitChar
      let kept := ds.take 9
      (digitsVal kept * 10 ^ (9 - kept.length), (a :: rest).dropWhile isDigitChar)
    else (0, s)
  | _ => (0, s)

/-- The date part `2006-01-02` of the layout: year, month and day read from
the value, and the rest.  The month is range-checked as it is read. -/
def parseDatePart (value : Str) : Option (Nat × Nat × Nat × Str) :=
  match getYear value with
  | none => none
  | some (year, v) =>
    match skipChar '-' v with
    | none => none
    | some v =>
      match getnum v true with
      | none => none
      | some (month, v) =>
        if month = 0 ∨ 12 < month then none else
        match skipChar '-' v with
        | none => none
        | some v =>
          match getnum v true with
          | none => none
          | some (day, v) => some (year, month, day, v)

/-- The clock part `15:04:05` of the layout: hour (one or two digits), minute,
second and an optional fractional second, each range-checked, and the rest. -/
def parseClockPart (v : Str) : Option (Nat × Nat × Nat × Nat × Str) :=
  match getnum v false with
  | none => none
  | some (hour, v) =>
    if 24 ≤ hour then none else
    match skipChar ':' v with
    | none => none
    | some v =>
      match getnum v true with
      | none => none
      | some (min, v) =>
        if 60 ≤ min then none else
        match skipChar ':' v with
        | none => none
        | some v =>
          match getnum v true with
          | none => none
          | some (sec, v) =>
            if 60 ≤ sec then none else
            let frac := fracSecond v
            some (hour, min, sec, frac.1, frac.2)

/-- Model of `time.Parse("2006-01-02 15:04:05", value)`: the UTC time read from
`value`, or `none` when Parse returns an error (malformed or out-of-range
element, text left over, or a day the month does not have). -/
def timeParse (value : Str) : Option Time :=
  match parseDatePart value with
  | none => none
  | some (year, month, day, v) =>
    match skipSpace v with
    | none => none
    | some v =>
      match parseClockPart v with
      | none => none
      | some (hour, min, sec, nsec, rest) =>
        if rest ≠ [] then none
        else if day < 1 ∨ daysIn month year < day then none
        else some ⟨daysFromCivil year month day * 86400 + hour * 3600 + min * 60 + sec, nsec, 0⟩

/-! ## encoding/csv -/

/-- The double quote character. -/
def dq : Char := Char.ofNat 34

/-- The carriage return character. -/
def cr : Char := Char.ofNat 13

/-- The line feed character. -/
def lf : Char := Char.ofNat 10

/-- The predicate `unicode.IsSpace`. -/
def isSpaceRune (c : Char) : Bool :=
  let n := c.toNat
  decide ((9 ≤ n ∧ n ≤ 13) ∨ n = 32 ∨ n = 0x85 ∨ n = 0xA0 ∨ n = 0x1680 ∨ (0x2000 ≤ n ∧ n ≤ 0x200A) ∨
    n = 0x2028 ∨ n = 0x2029 ∨ n = 0x202F ∨ n = 0x205F ∨ n = 0x3000)

/-- The method `fieldNeedsQuotes` of `csv.Writer` with the default comma. -/
def fieldNeedsQuotes (field : Str) : Bool :=
  match field with
  | [] => false
  | c :: _ =>
    if field = [Char.ofNat 92, '.'] then true
    else if field.any (fun x => x = lf ∨ x = cr ∨ x = dq ∨ x = ',') then true
    else isSpaceRune c

/-- A field between quotes, each quote inside doubled. -/
def quoteField (field : Str) : Str :=
  dq :: (field.flatMap fun c => if c = dq then [dq, dq] else [c]) ++ [dq]

/-- One field as `csv.Writer.Write` emits it. -/
def writeField (field : Str) : Str :=
  if fieldNeedsQuotes field then quoteField field else field

/-- The fields of a record separated by commas. -/
def writeFields : List Str → Str
  | [] => []
  | [f] => writeField f
  | f :: fs => writeField f ++ ',' :: writeFields fs

/-- Model of `csv.Writer.Write(record)` with the default settings
(comma separator, `UseCRLF` false): the line it appends to the file. -/
def csvWrite (record : List Str) : Str := writeFields record ++ [lf]

/-- Errors of `csv.Reader`. -/
inductive CsvError where
  | ErrBareQuote
  | ErrQuote
  | ErrFieldCount
  deriving DecidableEq

/-- The text as `csv.Reader.readLine` hands it to the parser, line after line:
CR LF at the end of a line becomes LF, and a CR that ends the input is dropped. -/
def csvNormalize : Str → Str
  | [] => []
  | c :: rest =>
    if c = cr ∧ rest = [] then []
    else if c = cr ∧ rest.head? = some lf then csvNormalize rest
    else c :: csvNormalize rest

/-- Where `csv.Reader.readRecord` is in the text. -/
inductive CsvState where
  | recordStart
  | fieldStart
  | unquoted (field : Str)
  | quoted (field : Str)
  | quoteSeen (field : Str)
  deriving DecidableEq

/-- End of a record: `FieldsPerRecord` is 0, so the first record fixes the
number of fields and every later record must have as many. -/
def endRecord (records : List (List Str)) (record : List Str) : Except CsvError (List (List Str)) :=
  match records with
  | [] => .ok [record]
  | first :: _ => if record.length = first.length then .ok (records ++ [record]) else .error .ErrFieldCount

/-- The parser of `csv.Reader` with the default settings (comma separator, no
comment character, `LazyQuotes` and `TrimLeadingSpace` false, `FieldsPerRecord`
0), as a scan of the normalized text: `records` are the records read so far and
`record` the fields read so far of the current one. -/
def csvScan : Str → CsvState → List (List Str) → List Str → Except CsvError (List (List Str))
  | [], .recordStart, records, _ => .ok records
  | [], .fieldStart, records, record => endRecord records (record ++ [[]])
  | [], .unquoted field, records, record => endRecord records (record ++ [field])
  | [], .quoted _, _, _ => .error .ErrQuote
  | [], .quoteSeen field, records, record => endRecord records (record ++ [field])
  | c :: cs, .recordStart, records, _ =>
    if c = lf then csvScan cs .recordStart records []
    else if c = dq then csvScan cs (.quoted []) records []
    else if c = ',' then csvScan cs .fieldStart records [[]]
    else csvScan cs (.unquoted [c]) records []
  | c :: cs, .fieldStart, records, record =>
    if c = dq then csvScan cs (.quoted []) records record
    else if c = ',' then csvScan cs .fieldStart records (record ++ [[]])
    else if c = lf then (endRecord records (record ++ [[]])).bind fun rs => csvScan cs .recordStart rs []
    else csvScan cs (.unquoted [c]) records record
  | c :: cs, .unquoted field, records, record =>
    if c = dq then .error .ErrBareQuote
    else if c = ',' then csvScan cs .fieldStart records (record ++ [field])
    else if c = lf then (endRecord records (record ++ [field])).bind fun rs => csvScan cs .recordStart rs []
    else csvScan cs (.unquoted (field ++ [c])) records record
  | c :: cs, .quoted field, records, record =>
    if c = dq then csvScan cs (.quoteSeen field) records record
    else csvScan cs (.quoted (field ++ [c])) records record
  | c :: cs, .quoteSeen field, records, record =>
    if c = dq then csvScan cs (.quoted (field ++ [dq])) records record
    else if c = ',' then csvScan cs .fieldStart records (record ++ [field])
    else if c = lf then (endRecord records (record ++ [field])).bind fun rs => csvScan cs .recordStart rs []
    else .error .ErrQuote

/-- Model of `csv.NewReader(file).ReadAll()` on the content of the file. -/
def ReadAll (content : Str) : Except CsvError (List (List Str)) :=
  csvScan (csvNormalize content) .recordStart [] []


/-! ## The program: `Expense-Tracker.go` -/

deriving instance DecidableEq for Except

/-- The struct `Expense`. -/
structure Expense where
  Name : Str
  Price : Float64
  Category : Str
  Date : Time
  deriving DecidableEq

/-- The struct `Budget`. -/
structure Budget where
  Limit : Float64
  Expenses : List Expense
  deriving DecidableEq

/-- The loop `for _, x := range xs { ... }` acting on the variables `state`. -/
def forRange {α σ : Type} : List α → σ → (σ → α → σ) → σ
  | [], state, _ => state
  | x :: rest, state, body => forRange rest (body state x) body

/-- Model of `reader.ReadString('\n')` on the unread standard input: the text
up to and including the first line feed (everything, at end of input) and the
input left unread.  The error it returns at end of input is ignored by every
caller. -/
def ReadString : Str → Str × Str
  | [] => ([], [])
  | c :: cs => if c = lf then ([c], cs) else (c :: (ReadString cs).1, (ReadString cs).2)

/-- The function `trimNewLine`: `strings.TrimSuffix(str, "\n")`. -/
def trimNewLine (str : Str) : Str :=
  if str.getLast? = some lf then str.dropLast else str

/-- Model of `strings.ReplaceAll(s, old, new)` for a one-character `old`. -/
def ReplaceAll (s : Str) (old : Char) (new : Str) : Str :=
  s.flatMap fun c => if c = old then new else [c]

/-- The function `parseFloat`: the value and what it prints. -/
def parseFloat (value : Str) : Float64 × List Str :=
  let value := ReplaceAll value ',' []
  let r := ParseFloat value
  match r.2 with
  | some _ => (Float64.zero, ["Error parsing float value: ".toList])
  | none => (r.1, [])

/-- The line `- %s: $%.2f (%s) [%s]` that shows one expense. -/
def expenseLine (expense : Expense) : Str :=
  "- ".toList ++ expense.Name ++ ": $".toList ++ FormatFloat expense.Price 2 ++ " (".toList ++
    expense.Category ++ ") [".toList ++ expense.Date.Format ++ "]\n".toList

/-- Lines 26 to 33 of `main`: the prompt for the budget limit.  Returns the
unread input, the budget and the text printed. -/
def mainStart (reader : Str) : Str × Budget × List Str :=
  let r := ReadString reader
  let limitInput := trimNewLine r.1
  let limit := (ParseFloat limitInput).1
  (r.2, ⟨limit, []⟩, ["Enter your budget limit: ".toList])

/-- The function `addExpense`; `now` is the value of `time.Now()`.  Returns the
unread input, the budget and the text printed. -/
def addExpense (reader : Str) (now : Time) (budget : Budget) : Str × Budget × List Str :=
  let r1 := ReadString reader
  let name := trimNewLine r1.1
  let r2 := ReadString r1.2
  let priceInput := trimNewLine r2.1
  let price := (ParseFloat priceInput).1
  let r3 := ReadString r2.2
  let category := trimNewLine r3.1
  let expense : Expense := ⟨name, price, category, now⟩
  (r3.2, { budget with Expenses := budget.Expenses ++ [expense] },
    ["\nEnter expense name: ".toList, "Enter expense amount: ".toList,
     "Enter expense category: ".toList, "Expense added successfully!\n".toList])

/-- The function `viewExpenses`: the text printed. -/
def viewExpenses (budget : Budget) : List Str :=
  if budget.Expenses.length = 0 then ["No expenses found.\n".toList]
  else
    forRange budget.Expenses ["\nExpenses:\n".toList] fun out expense => out ++ [expenseLine expense]

/-- The slice `filteredExpenses` built by the loop of `filterExpensesByCategory`. -/
def filteredExpenses (budget : Budget) (category : Str) : List Expense :=
  forRange budget.Expenses [] fun filtered expense =>
    if expense.Category = category then filtered ++ [expense] else filtered

/-- The function `filterExpensesByCategory`: the unread input and the text printed. -/
def filterExpensesByCategory (reader : Str) (budget : Budget) : Str × List Str :=
  if budget.Expenses.length = 0 then (reader, ["No expenses found.\n".toList])
  else
    let r := ReadString reader
    let category := trimNewLine r.1
    let filtered := filteredExpenses budget category
    if filtered.length = 0 then
      (r.2, ["Enter category to filter expenses: ".toList,
             "No expenses found in the specified category.\n".toList])
    else
      (r.2, forRange filtered
        ["Enter category to filter expenses: ".toList, "\nFiltered Expenses:\n".toList]
        fun out expense => out ++ [expenseLine expense])

/-- The variables `totalExpenses` and `remainingBudget` of `viewRemainingBudget`
(lines 138 to 143). -/
def viewRemainingBudgetVars (budget : Budget) : Float64 × Float64 :=
  let totalExpenses := forRange budget.Expenses Float64.zero fun total expense => total + expense.Price
  let remainingBudget := budget.Limit - totalExpenses
  (totalExpenses, remainingBudget)

/-- The function `viewRemainingBudget`: the text printed. -/
def viewRemainingBudget (budget : Budget) : List Str :=
  let vars := viewRemainingBudgetVars budget
  ["\nRemaining Budget: $".toList ++ FormatFloat vars.2 2 ++ "\n".toList]

/-- What a reporting operation does: the text it prints and the file it
creates, if any, as name and content. -/
structure Output where
  console : List Str
  file : Option (Str × Str)
  deriving DecidableEq

/-- The variables `totalExpenses` and `remainingBudget` of
`generateFinancialReport` (lines 156 to 161). -/
def generateFinancialReportVars (budget : Budget) : Float64 × Float64 :=
  let totalExpenses := forRange budget.Expenses Float64.zero fun total expense => total + expense.Price
  let remainingBudget := budget.Limit - totalExpenses
  (totalExpenses, remainingBudget)

/-- The function `generateFinancialReport`; `created` tells whether
`os.Create("financial_report.txt")` succeeds.  The program ignores the error of
`os.Create`: when it fails the file is nil, every write to it fails without a
panic, no file results, and the success line is printed all the same. -/
def generateFinancialReport (created : Bool) (budget : Budget) : Output :=
  if budget.Expenses.length = 0 then ⟨["No expenses found.\n".toList], none⟩
  else
    let totalExpenses := (generateFinancialReportVars budget).1
    let remainingBudget := (generateFinancialReportVars budget).2
    let text := "Financial Report\n\n".toList ++
      ("Budget Limit: $".toList ++ FormatFloat budget.Limit 2 ++ "\n".toList) ++
      ("Total Expenses: $".toList ++ FormatFloat totalExpenses 2 ++ "\n".toList) ++
      ("Remaining Budget: $".toList ++ FormatFloat remainingBudget 2 ++ "\n\n".toList) ++
      "Expenses:\n".toList
    let text := forRange budget.Expenses text fun text expense => text ++ expenseLine expense
    ⟨["Financial report generated successfully!\n".toList],
      if created then some ("financial_report.txt".toList, text) else none⟩

/-- The function `exportExpensesToCSV`; `created` tells whether
`os.Create("expenses.csv")` succeeds.  The program ignores the error of
`os.Create`: when it fails the file is nil, the flush of the CSV writer fails
without a panic, no file results, and the success line is printed all the same. -/
def exportExpensesToCSV (created : Bool) (budget : Budget) : Output :=
  if budget.Expenses.length = 0 then ⟨["No expenses found.\n".toList], none⟩
  else
    let headers := ["Name".toList, "Price".toList, "Category".toList, "Date".toList]
    let text := csvWrite headers
    let text := forRange budget.Expenses text fun text expense =>
      let record := [expense.Name, FormatFloat expense.Price 2, expense.Category, expense.Date.Format]
      text ++ csvWrite record
    ⟨["Expenses exported to CSV successfully!\n".toList],
      if created then some ("expenses.csv".toList, text) else none⟩

/-- A run-time panic of the Go program. -/
inductive Panic where
  | indexOutOfRange (index length : Nat)
  deriving DecidableEq

/-- The slice index expression `record[i]`. -/
def index (record : List Str) (i : Nat) : Except Panic Str :=
  match record.get? i with
  | some field => .ok field
  | none => .error (.indexOutOfRange i record.length)

/-- The `for _, record := range records` loop of `importExpensesFromCSV`:
the budget and the text printed after the remaining records, or the panic that
stops the program. -/
def importRecords : List (List Str) → Budget → List Str → Except Panic (Budget × List Str)
  | [], budget, out => .ok (budget, out)
  | record :: rest, budget, out =>
    match index record 0 with
    | .error p => .error p
    | .ok name =>
      match index record 1 with
      | .error p => .error p
      | .ok priceField =>
        let price := parseFloat priceField
        match index record 2 with
        | .error p => .error p
        | .ok category =>
          match index record 3 with
          | .error p => .error p
          | .ok dateField =>
            match timeParse dateField with
            | none => importRecords rest budget (out ++ price.2 ++ ["Error parsing date: ".toList])
            | some date =>
              importRecords rest
                { budget with Expenses := budget.Expenses ++ [⟨name, price.1, category, date⟩] }
                (out ++ price.2)

/-- The files the program can open: path and content.  A path is looked up as it
is spelled; the first entry for a path is the file's current content. -/
abbrev FileSystem := List (Str × Str)

/-- Model of `os.Open(filePath)` followed by reading the file: its content, or
`none` when it cannot be opened. -/
def openFile (files : FileSystem) (filePath : Str) : Option Str :=
  (files.find? fun f => f.1 = filePath).map fun f => f.2

/-- The function `importExpensesFromCSV`: the unread input, the budget and the
text printed, or the panic that stops the program. -/
def importExpensesFromCSV (reader : Str) (files : FileSystem) (budget : Budget) :
    Except Panic (Str × Budget × List Str) :=
  let r := ReadString reader
  let filePath := trimNewLine r.1
  match openFile files filePath with
  | none => .ok (r.2, budget, ["Enter the path of the CSV file: ".toList, "Error opening CSV file: ".toList])
  | some content =>
    match ReadAll content with
    | .error _ =>
      .ok (r.2, budget, ["Enter the path of the CSV file: ".toList, "Error reading CSV file: ".toList])
    | .ok records =>
      match importRecords records budget ["Enter the path of the CSV file: ".toList] with
      | .error p => .error p
      | .ok (budget, out) => .ok (r.2, budget, out ++ ["Expenses imported from CSV successfully!\n".toList])

/-- The state of an interactive session: unread standard input, the budget,
everything printed so far and the files on disk. -/
structure Session where
  reader : Str
  budget : Budget
  console : List Str
  files : FileSystem
  deriving DecidableEq

/-- How one pass through the menu loop of `main` ends. -/
inductive Step where
  | next (s : Session)
  | exit (s : Session)
  | panic (p : Panic)
  deriving DecidableEq

/-- The menu that each pass of the loop prints. -/
def menuText : List Str :=
  ["\n1. Add an expense\n".toList, "2. View expenses\n".toList,
   "3. Filter expenses by category\n".toList, "4. View remaining budget\n".toList,
   "5. Generate financial report\n".toList, "6. Export expenses to CSV\n".toList,
   "7. Import expenses from CSV\n".toList, "8. Exit\n".toList, "\nEnter your choice: ".toList]

/-- A file created by an operation replaces the one of the same name. -/
def createFile (files : FileSystem) (file : Option (Str × Str)) : FileSystem :=
  match file with
  | none => files
  | some f => f :: files

/-- One pass through the `for` loop of `main` (lines 36 to 69); `now` is the
value `time.Now()` would return during the pass and `canCreate name` tells
whether `os.Create(name)` succeeds. -/
def mainStep (now : Time) (canCreate : Str → Bool) (s : Session) : Step :=
  let r := ReadString s.reader
  let choice := trimNewLine r.1
  let console := s.console ++ menuText
  if choice = "1".toList then
    let a := addExpense r.2 now s.budget
    .next ⟨a.1, a.2.1, console ++ a.2.2, s.files⟩
  else if choice = "2".toList then
    .next ⟨r.2, s.budget, console ++ viewExpenses s.budget, s.files⟩
  else if choice = "3".toList then
    let a := filterExpensesByCategory r.2 s.budget
    .next ⟨a.1, s.budget, console ++ a.2, s.files⟩
  else if choice = "4".toList then
    .next ⟨r.2, s.budget, console ++ viewRemainingBudget s.budget, s.files⟩
  else if choice = "5".toList then
    let o := generateFinancialReport (canCreate "financial_report.txt".toList) s.budget
    .next ⟨r.2, s.budget, console ++ o.console, createFile s.files o.file⟩
  else if choice = "6".toList then
    let o := exportExpensesToCSV (canCreate "expenses.csv".toList) s.budget
    .next ⟨r.2, s.budget, console ++ o.console, createFile s.files o.file⟩
  else if choice = "7".toList then
    match importExpensesFromCSV r.2 s.files s.budget with
    | .error p => .panic p
    | .ok a => .next ⟨a.1, a.2.1, console ++ a.2.2, s.files⟩
  else if choice = "8".toList then
    .exit ⟨r.2, s.budget, console ++ ["Exiting...\n".toList], s.files⟩
  else
    .next ⟨r.2, s.budget, console ++ ["Invalid choice. Please try again.\n".toList], s.files⟩

/-- At most `passes` passes through the menu loop; `clock i` is the time during
pass `i`. -/
def mainLoop (clock : Nat → Time) (canCreate : Str → Bool) : Nat → Nat → Session → Step
  | 0, _, s => .next s
  | passes + 1, i, s =>
    match mainStep (clock i) canCreate s with
    | .next s => mainLoop clock canCreate passes (i + 1) s
    | r => r

/-- The function `main`, run for at most `passes` passes through the menu. -/
def main (clock : Nat → Time) (canCreate : Str → Bool) (files : FileSystem) (stdin : Str)
    (passes : Nat) : Step :=
  let a := mainStart stdin
  mainLoop clock canCreate passes 0 ⟨a.1, a.2.1, a.2.2, files⟩

/-! ## Specification-side definitions -/

/-- The sum of the prices accumulated left to right in insertion order,
starting from `0.0` (the specification's `totalSpent`). -/
def sumPrices (expenses : List Expense) : Float64 :=
  expenses.foldl (fun total expense => total + expense.Price) Float64.zero

/-- Successive calls of `addExpense`, one for each entry of `times` (the value of
`time.Now()` during the call), all reading from the same standard input. -/
def addExpenseCalls : List Time → Str → Budget → Str × Budget
  | [], reader, budget => (reader, budget)
  | now :: rest, reader, budget =>
    addExpenseCalls rest (addExpense reader now budget).1 (addExpense reader now budget).2.1

/-- The expenses typed on the standard input, three lines each (name, amount,
category), one for each entry of `times`, in the order typed. -/
def typedExpenses : List Time → Str → List Expense
  | [], _ => []
  | now :: rest, reader =>
    let r1 := ReadString reader
    let r2 := ReadString r1.2
    let r3 := ReadString r2.2
    ⟨trimNewLine r1.1, (ParseFloat (trimNewLine r2.1)).1, trimNewLine r3.1, now⟩ ::
      typedExpenses rest r3.2

/-- The expense that a four-column record describes: name, price, category and
date from columns 0 to 3, when column 3 parses as a date; nothing otherwise. -/
def recordExpense (record : List Str) : Option Expense :=
  match record with
  | [name, price, category, date] =>
    (timeParse date).map fun d => ⟨name, (parseFloat price).1, category, d⟩
  | _ => none


/-- Whether the text contains a carriage return directly followed by a line feed. -/
def hasCRLF : Str → Bool
  | c :: d :: rest => decide (c = cr ∧ d = lf) || hasCRLF (d :: rest)
  | _ => false

/-- The CSV record that `exportExpensesToCSV` writes for an expense. -/
def exportRecord (e : Expense) : List Str :=
  [e.Name, FormatFloat e.Price 2, e.Category, e.Date.Format]

/-- Whether the text is free of carriage returns. -/
def noCR (s : Str) : Bool := s.all fun c => c != cr


/-! ## Lemmas on loops -/

theorem forRange_eq_foldl {α σ : Type} (xs : List α) (init : σ) (body : σ → α → σ) :
    forRange xs init body = xs.foldl body init := by
  induction xs generalizing init with
  | nil => rfl
  | cons x rest ih => simp [forRange, ih]

theorem forRange_append_each {α β : Type} (xs : List α) (acc : List β) (f : α → β) :
    forRange xs acc (fun out x => out ++ [f x]) = acc ++ xs.map f := by
  induction xs generalizing acc with
  | nil => simp [forRange]
  | cons x rest ih => simp [forRange, ih]

theorem forRange_concat_each {α β : Type} (xs : List α) (acc : List β) (f : α → List β) :
    forRange xs acc (fun out x => out ++ f x) = acc ++ xs.flatMap f := by
  induction xs generalizing acc with
  | nil => simp [forRange]
  | cons x rest ih => simp [forRange, ih]

theorem forRange_filter {α : Type} (xs : List α) (acc : List α) (p : α → Prop) [DecidablePred p] :
    forRange xs acc (fun out x => if p x then out ++ [x] else out)
      = acc ++ xs.filter (fun x => decide (p x)) := by
  induction xs generalizing acc with
  | nil => simp [forRange]
  | cons x rest ih =>
    by_cases h : p x <;> simp [forRange, ih, h]

theorem filteredExpenses_eq_filter (budget : Budget) (category : Str) :
    filteredExpenses budget category
      = budget.Expenses.filter (fun e => decide (e.Category = category)) := by
  unfold filteredExpenses
  rw [forRange_filter budget.Expenses [] (fun e => e.Category = category)]
  simp

/-! ## C3 -/

/-- C3: the slice that `filterExpensesByCategory` builds is exactly the
subsequence of the expenses whose `Category` equals the category typed (string
equality, so case-sensitive), in the original order; it is empty when no
expense has that category; and the lines printed are those of that subsequence. -/
theorem filterExpensesByCategory_exact (budget : Budget) (category : Str) :
    filteredExpenses budget category
        = budget.Expenses.filter (fun e => decide (e.Category = category)) ∧
    (filteredExpenses budget category).Sublist budget.Expenses ∧
    (∀ e, e ∈ filteredExpenses budget category ↔ e ∈ budget.Expenses ∧ e.Category = category) ∧
    ((∀ e ∈ budget.Expenses, e.Category ≠ category) → filteredExpenses budget category = []) ∧
    (∀ reader, budget.Expenses ≠ [] → trimNewLine (ReadString reader).1 = category →
      filterExpensesByCategory reader budget =
        ((ReadString reader).2,
          if filteredExpenses budget category = [] then
            ["Enter category to filter expenses: ".toList,
             "No expenses found in the specified category.\n".toList]
          else
            ["Enter category to filter expenses: ".toList, "\nFiltered Expenses:\n".toList] ++
              (filteredExpenses budget category).map expenseLine)) := by
  refine ⟨filteredExpenses_eq_filter budget category, ?_, ?_, ?_, ?_⟩
  · rw [filteredExpenses_eq_filter]; exact List.filter_sublist _
  · intro e; rw [filteredExpenses_eq_filter]; simp [List.mem_filter]
  · intro h; rw [filteredExpenses_eq_filter]
    simp only [List.filter_eq_nil_iff, decide_eq_true_eq]
    exact h
  · intro reader hne hcat
    have hlen : ¬ budget.Expenses.length = 0 := by
      simpa [List.length_eq_zero] using hne
    simp only [filterExpensesByCategory, hlen, if_false, hcat, List.length_eq_zero]
    by_cases hf : filteredExpenses budget category = []
    · simp [hf]
    · simp [hf, forRange_append_each]

/-- C3, an instance: of three expenses in the categories `Food`, `food` and
`Food`, the filter on `Food` keeps the first and the third. -/
theorem filterExpensesByCategory_exact_witness :
    filteredExpenses
        ⟨Float64.zero, [⟨"a".toList, Float64.zero, "Food".toList, ⟨0, 0, 0⟩⟩,
                        ⟨"b".toList, Float64.zero, "food".toList, ⟨0, 0, 0⟩⟩,
                        ⟨"c".toList, Float64.zero, "Food".toList, ⟨0, 0, 0⟩⟩]⟩ "Food".toList
      = [⟨"a".toList, Float64.zero, "Food".toList, ⟨0, 0, 0⟩⟩,
         ⟨"c".toList, Float64.zero, "Food".toList, ⟨0, 0, 0⟩⟩] := by
  rw [(filterExpensesByCategory_exact _ _).1]
  decide

/-! ## C4 -/

/-- C4: the total that `viewRemainingBudget` and `generateFinancialReport`
compute is the sum of the prices accumulated left to right in insertion order
from `0.0`, the remaining budget is the limit minus that total (whatever its
sign), the two operations compute the same values, and the line printed shows
the remaining budget, as do the lines of the report when its file is created;
with limit 10 and one expense of 15 the line is `Remaining Budget: $-5.00`. -/
theorem total_and_remaining_budget (budget : Budget) :
    viewRemainingBudgetVars budget
        = (sumPrices budget.Expenses, budget.Limit - sumPrices budget.Expenses) ∧
    generateFinancialReportVars budget
        = (sumPrices budget.Expenses, budget.Limit - sumPrices budget.Expenses) ∧
    viewRemainingBudgetVars budget = generateFinancialReportVars budget ∧
    (∀ expense, sumPrices (budget.Expenses ++ [expense])
        = sumPrices budget.Expenses + expense.Price) ∧
    viewRemainingBudget budget =
      ["\nRemaining Budget: $".toList ++
        FormatFloat (budget.Limit - sumPrices budget.Expenses) 2 ++ "\n".toList] ∧
    (budget.Expenses ≠ [] → ∃ before after,
      (generateFinancialReport true budget).file = some ("financial_report.txt".toList,
        before ++
        ("Total Expenses: $".toList ++ FormatFloat (sumPrices budget.Expenses) 2 ++
          "\n".toList) ++
        ("Remaining Budget: $".toList ++
          FormatFloat (budget.Limit - sumPrices budget.Expenses) 2 ++ "\n\n".toList) ++
        after)) ∧
    viewRemainingBudget
        ⟨(ParseFloat "10".toList).1, [⟨"rent".toList, (ParseFloat "15".toList).1, "home".toList, ⟨0, 0, 0⟩⟩]⟩
      = ["\nRemaining Budget: $-5.00\n".toList] := by
  have h1 : viewRemainingBudgetVars budget
      = (sumPrices budget.Expenses, budget.Limit - sumPrices budget.Expenses) := by
    simp [viewRemainingBudgetVars, sumPrices, forRange_eq_foldl]
  have h2 : generateFinancialReportVars budget
      = (sumPrices budget.Expenses, budget.Limit - sumPrices budget.Expenses) := by
    simp [generateFinancialReportVars, sumPrices, forRange_eq_foldl]
  refine ⟨h1, h2, h1.trans h2.symm, ?_, ?_, ?_, ?_⟩
  · intro expense; simp [sumPrices, List.foldl_append]
  · simp [viewRemainingBudget, h1]
  · intro hne
    have hlen : ¬ budget.Expenses.length = 0 := by simpa [List.length_eq_zero] using hne
    refine ⟨"Financial Report\n\n".toList ++
        ("Budget Limit: $".toList ++ FormatFloat budget.Limit 2 ++ "\n".toList),
      "Expenses:\n".toList ++ budget.Expenses.flatMap expenseLine, ?_⟩
    simp only [generateFinancialReport, hlen, if_false, if_true, h2, forRange_concat_each,
      List.append_assoc]
  · decide


/-! ## C5 -/

theorem viewExpenses_lists_in_order (budget : Budget) (h : budget.Expenses ≠ []) :
    viewExpenses budget = "\nExpenses:\n".toList :: budget.Expenses.map expenseLine := by
  have hlen : ¬ budget.Expenses.length = 0 := by simpa [List.length_eq_zero] using h
  simp [viewExpenses, hlen, forRange_append_each]

theorem addExpenseCalls_spec (times : List Time) (reader : Str) (budget : Budget) :
    (addExpenseCalls times reader budget).2
      = ⟨budget.Limit, budget.Expenses ++ typedExpenses times reader⟩ := by
  induction times generalizing reader budget with
  | nil => simp [addExpenseCalls, typedExpenses]
  | cons now rest ih =>
    simp only [addExpenseCalls, typedExpenses]
    rw [ih]
    simp [addExpense]

/-- C5: after any sequence of `addExpense` calls the expense sequence is the
initial one followed by the expenses typed, in call order; each call appends
exactly one expense at the end and leaves the earlier expenses and the limit
unchanged; none is rejected or merged, whatever the limit, the price or the
expenses already present; and `viewExpenses` lists the expenses in that order. -/
theorem addExpense_appends_in_call_order (times : List Time) (reader : Str) (budget : Budget) :
    (addExpenseCalls times reader budget).2.Limit = budget.Limit ∧
    (addExpenseCalls times reader budget).2.Expenses
        = budget.Expenses ++ typedExpenses times reader ∧
    (typedExpenses times reader).length = times.length ∧
    (∀ now, (addExpense reader now budget).2.1 =
        ⟨budget.Limit, budget.Expenses ++
          [⟨trimNewLine (ReadString reader).1,
            (ParseFloat (trimNewLine (ReadString (ReadString reader).2).1)).1,
            trimNewLine (ReadString (ReadString (ReadString reader).2).2).1, now⟩]⟩) ∧
    (times ≠ [] → viewExpenses (addExpenseCalls times reader budget).2 =
        "\nExpenses:\n".toList ::
          (budget.Expenses ++ typedExpenses times reader).map expenseLine) := by
  refine ⟨by rw [addExpenseCalls_spec], by rw [addExpenseCalls_spec], ?_, ?_, ?_⟩
  · induction times generalizing reader with
    | nil => rfl
    | cons now rest ih => simp [typedExpenses, ih]
  · intro now; simp [addExpense]
  · intro hne
    rw [viewExpenses_lists_in_order, addExpenseCalls_spec]
    rw [addExpenseCalls_spec]
    cases times with
    | nil => exact absurd rfl hne
    | cons now rest => simp [typedExpenses]

/-- C5, an instance: the same expense typed twice, with a negative price and
over the limit, is recorded twice, after the expense already there. -/
theorem addExpense_appends_in_call_order_witness :
    (addExpenseCalls [⟨10, 0, 0⟩, ⟨20, 0, 0⟩] "tea\n-5\nfood\ntea\n-5\nfood\n".toList
        ⟨Float64.zero, [⟨"bus".toList, (ParseFloat "2.5".toList).1, "travel".toList, ⟨0, 0, 0⟩⟩]⟩).2.Expenses
      = [⟨"bus".toList, (ParseFloat "2.5".toList).1, "travel".toList, ⟨0, 0, 0⟩⟩,
         ⟨"tea".toList, (ParseFloat "-5".toList).1, "food".toList, ⟨10, 0, 0⟩⟩,
         ⟨"tea".toList, (ParseFloat "-5".toList).1, "food".toList, ⟨20, 0, 0⟩⟩] := by
  rw [(addExpense_appends_in_call_order _ _ _).2.1]
  decide

/-! ## C6 -/

theorem ReplaceAll_eq_filter (s : Str) (old : Char) :
    ReplaceAll s old [] = s.filter (fun c => decide (c ≠ old)) := by
  induction s with
  | nil => rfl
  | cons c rest ih =>
    have ih' : List.flatMap rest (fun c => if c = old then [] else [c])
        = rest.filter (fun c => decide (c ≠ old)) := ih
    by_cases h : c = old <;> simp [ReplaceAll, List.flatMap_cons, h, ih']

/-- C6: `parseFloat` parses its input with every comma removed (the other
characters kept, in order), returns `0.0` whenever that parse reports an error
and the parsed value otherwise; `"1,234.50"` gives 1234.50 (2469/2, exactly
representable) and `"abc"` gives `0.0`. -/
theorem parseFloat_strips_commas (value : Str) :
    ReplaceAll value ',' [] = value.filter (fun c => decide (c ≠ ',')) ∧
    ',' ∉ ReplaceAll value ',' [] ∧
    (parseFloat value).1 =
      (if (ParseFloat (ReplaceAll value ',' [])).2 = none
       then (ParseFloat (ReplaceAll value ',' [])).1 else Float64.zero) ∧
    (parseFloat "1,234.50".toList).1 = Float64.nearest false 123450 100 ∧
    Float64.nearest false 123450 100 = Float64.fin false (2469 * 2 ^ 41) (-42) ∧
    (parseFloat "abc".toList).1 = Float64.zero := by
  refine ⟨ReplaceAll_eq_filter value ',', ?_, ?_, by decide, by decide, by decide⟩
  · rw [ReplaceAll_eq_filter]; simp [List.mem_filter]
  · unfold parseFloat
    cases h : (ParseFloat (ReplaceAll value ',' [])).2 <;> simp [h]

/-! ## C7 -/

/-- C7 fails on the code: the CSV reader accepts the text `a,b` as one record
of two fields, and `importExpensesFromCSV` then panics at `record[2]`, which
ends the session started by `main`. -/
theorem import_panics_on_short_row :
    ReadAll "a,b\n".toList = .ok [["a".toList, "b".toList]] ∧
    importExpensesFromCSV "short.csv\n".toList [("short.csv".toList, "a,b\n".toList)]
        ⟨Float64.zero, []⟩ = .error (.indexOutOfRange 2 2) ∧
    main (fun _ => ⟨0, 0, 0⟩) (fun _ => true) [("short.csv".toList, "a,b\n".toList)]
        "100\n7\nshort.csv\n2\n8\n".toList 5 = .panic (.indexOutOfRange 2 2) := by
  decide

/-! ## C8 -/

/-- C8: when the file cannot be opened, or the CSV reader reports an error for
its content, `importExpensesFromCSV` prints the error line and returns with
the budget (limit and expenses) exactly as it was. -/
theorem import_aborts_on_file_failure (reader : Str) (files : FileSystem) (budget : Budget)
    (h : openFile files (trimNewLine (ReadString reader).1) = none ∨
         ∃ content e, openFile files (trimNewLine (ReadString reader).1) = some content ∧
           ReadAll content = .error e) :
    importExpensesFromCSV reader files budget =
      .ok ((ReadString reader).2, budget,
        ["Enter the path of the CSV file: ".toList,
         if openFile files (trimNewLine (ReadString reader).1) = none
         then "Error opening CSV file: ".toList else "Error reading CSV file: ".toList]) := by
  rcases h with h | ⟨content, e, h, hr⟩
  · simp [importExpensesFromCSV, h]
  · simp [importExpensesFromCSV, h, hr]

/-- C8, an instance: a file whose first two rows are well formed and whose
third row has too few fields is rejected by the reader, and nothing of it
reaches the budget. -/
theorem import_aborts_on_file_failure_witness :
    importExpensesFromCSV "bad.csv\n".toList
        [("bad.csv".toList,
          "Name,Price,Category,Date\ntea,1.00,food,2023-05-01 10:00:00\nbus,2.50\n".toList)]
        ⟨Float64.zero, [⟨"rent".toList, Float64.zero, "home".toList, ⟨0, 0, 0⟩⟩]⟩
      = .ok ([], ⟨Float64.zero, [⟨"rent".toList, Float64.zero, "home".toList, ⟨0, 0, 0⟩⟩]⟩,
          ["Enter the path of the CSV file: ".toList, "Error reading CSV file: ".toList]) :=
  import_aborts_on_file_failure _ _ _
    (Or.inr ⟨"Name,Price,Category,Date\ntea,1.00,food,2023-05-01 10:00:00\nbus,2.50\n".toList,
      .ErrFieldCount, by decide, by decide⟩)

/-! ## C9 -/

theorem ParseFloat_syntax_error_value (s : Str) (h : (ParseFloat s).2 = some .ErrSyntax) :
    (ParseFloat s).1 = Float64.zero := by
  unfold ParseFloat at h ⊢
  cases hsp : special s with
  | some vn =>
    obtain ⟨v, n⟩ := vn
    simp only [hsp] at h ⊢
    by_cases hn : n = s.length
    · simp [hn] at h
    · simp [hn]
  | none =>
    simp only [hsp] at h ⊢
    cases hrf : readFloat s with
    | none => simp
    | some lr =>
      obtain ⟨l, rest⟩ := lr
      simp only [hrf] at h ⊢
      by_cases hr : rest = []
      · simp only [hr, ne_eq, not_true_eq_false, if_false] at h
        split at h <;> simp at h
      · simp [hr]

/-- Input that `strconv.ParseFloat` rejects as a syntax error is stored as `0`
by `addExpense` and by the limit prompt, which keep the value `ParseFloat`
returns and ignore its error. -/
theorem syntax_error_input_is_zero (input : Str) (h : (ParseFloat input).2 = some .ErrSyntax) :
    (∀ reader now budget, trimNewLine (ReadString (ReadString reader).2).1 = input →
      (addExpense reader now budget).2.1.Expenses = budget.Expenses ++
        [⟨trimNewLine (ReadString reader).1, Float64.zero,
          trimNewLine (ReadString (ReadString (ReadString reader).2).2).1, now⟩]) ∧
    (∀ stdin, trimNewLine (ReadString stdin).1 = input →
      (mainStart stdin).2.1 = ⟨Float64.zero, []⟩) := by
  constructor
  · intro reader now budget hin
    simp [addExpense, hin, ParseFloat_syntax_error_value input h]
  · intro stdin hin
    simp [mainStart, hin, ParseFloat_syntax_error_value input h]

/-- C9 fails on the code: for the amount `1e999` the numeric parse reports an error
(out of range); `addExpense` records the price `+Inf` and the limit prompt
stores the limit `+Inf`, not `0`, while `parseFloat`, which reads the same
amount on import, gives `0`; an amount with a syntax error, `12abc`, is stored
as `0` at both places. -/
theorem range_error_input_is_not_zero :
    (ParseFloat "1e999".toList).2 = some .ErrRange ∧
    (addExpense "taxi\n1e999\ntravel\n".toList ⟨0, 0, 0⟩ ⟨Float64.zero, []⟩).2.1.Expenses
      = [⟨"taxi".toList, Float64.inf false, "travel".toList, ⟨0, 0, 0⟩⟩] ∧
    (mainStart "1e999\n".toList).2.1.Limit = Float64.inf false ∧
    Float64.inf false ≠ Float64.zero ∧
    (parseFloat "1e999".toList).1 = Float64.zero ∧
    (ParseFloat "12abc".toList).2 = some .ErrSyntax ∧
    (addExpense "taxi\n12abc\ntravel\n".toList ⟨0, 0, 0⟩ ⟨Float64.zero, []⟩).2.1.Expenses
      = [⟨"taxi".toList, Float64.zero, "travel".toList, ⟨0, 0, 0⟩⟩] ∧
    (mainStart "12abc\n".toList).2.1.Limit = Float64.zero := by
  decide

/-! ## C2 -/

theorem importRecords_four_columns (records : List (List Str)) (budget : Budget) (out : List Str)
    (h : ∀ r ∈ records, r.length = 4) :
    ∃ out', importRecords records budget out =
      .ok (⟨budget.Limit, budget.Expenses ++ records.filterMap recordExpense⟩, out') := by
  induction records generalizing budget out with
  | nil => exact ⟨out, by simp [importRecords]⟩
  | cons record rest ih =>
    have hrest : ∀ r ∈ rest, r.length = 4 := fun r hr => h r (List.mem_cons_of_mem _ hr)
    have h4 : record.length = 4 := h record (List.mem_cons_self _ _)
    match record, h4 with
    | [a, b, c, d], _ =>
      cases hd : timeParse d with
      | none =>
        obtain ⟨o, ho⟩ := ih budget (out ++ (parseFloat b).2 ++ ["Error parsing date: ".toList]) hrest
        refine ⟨o, ?_⟩
        simp only [importRecords, index, List.get?, hd, recordExpense, List.filterMap_cons,
          Option.map_none']
        exact ho
      | some t =>
        obtain ⟨o, ho⟩ := ih ⟨budget.Limit, budget.Expenses ++ [⟨a, (parseFloat b).1, c, t⟩]⟩
          (out ++ (parseFloat b).2) hrest
        refine ⟨o, ?_⟩
        simp only [importRecords, index, List.get?, hd, recordExpense, List.filterMap_cons,
          Option.map_some']
        rw [ho]
        simp

/-- C2: when the file opens and the CSV reader returns four-column records,
`importExpensesFromCSV` leaves the limit as it was and appends to the expenses,
in file order, one expense (name column 0, price `parseFloat` of column 1,
category column 2, date the parse of column 3) for each record whose column 3
parses as `YYYY-MM-DD HH:MM:SS`, and nothing for the other records. -/
theorem import_skips_exactly_unparseable_dates (reader : Str) (files : FileSystem)
    (budget : Budget) (content : Str) (records : List (List Str))
    (hopen : openFile files (trimNewLine (ReadString reader).1) = some content)
    (hread : ReadAll content = .ok records)
    (hcols : ∀ r ∈ records, r.length = 4) :
    ∃ out, importExpensesFromCSV reader files budget =
      .ok ((ReadString reader).2,
        ⟨budget.Limit, budget.Expenses ++ records.filterMap recordExpense⟩, out) := by
  obtain ⟨o, ho⟩ := importRecords_four_columns records budget
    ["Enter the path of the CSV file: ".toList] hcols
  refine ⟨o ++ ["Expenses imported from CSV successfully!\n".toList], ?_⟩
  simp only [importExpensesFromCSV, hopen, hread, ho]

/-- C2, an instance: of three rows where only the second has an invalid date, the
budget gains the first and the third, after the expense already there. -/
theorem import_skips_exactly_unparseable_dates_witness :
    (∃ out, importExpensesFromCSV "in.csv\n".toList
        [("in.csv".toList,
          "tea,1.50,food,2023-05-01 10:00:00\nbus,2.00,travel,yesterday\nrent,1200,home,2023-05-03 08:30:00\n".toList)]
        ⟨Float64.zero, [⟨"old".toList, Float64.zero, "misc".toList, ⟨0, 0, 0⟩⟩]⟩ =
      .ok ([], ⟨Float64.zero, [⟨"old".toList, Float64.zero, "misc".toList, ⟨0, 0, 0⟩⟩] ++
        [["tea".toList, "1.50".toList, "food".toList, "2023-05-01 10:00:00".toList],
         ["bus".toList, "2.00".toList, "travel".toList, "yesterday".toList],
         ["rent".toList, "1200".toList, "home".toList, "2023-05-03 08:30:00".toList]].filterMap
          recordExpense⟩, out)) ∧
    [["tea".toList, "1.50".toList, "food".toList, "2023-05-01 10:00:00".toList],
     ["bus".toList, "2.00".toList, "travel".toList, "yesterday".toList],
     ["rent".toList, "1200".toList, "home".toList, "2023-05-03 08:30:00".toList]].filterMap
        recordExpense
      = [⟨"tea".toList, Float64.nearest false 3 2, "food".toList, ⟨1682935200, 0, 0⟩⟩,
         ⟨"rent".toList, Float64.nearest false 1200 1, "home".toList, ⟨1683102600, 0, 0⟩⟩] :=
  ⟨import_skips_exactly_unparseable_dates _ _ _
      "tea,1.50,food,2023-05-01 10:00:00\nbus,2.00,travel,yesterday\nrent,1200,home,2023-05-03 08:30:00\n".toList
      _ (by decide) (by decide) (by decide),
   by decide⟩

/-! ## C10 -/

theorem exportExpensesToCSV_text (budget : Budget) (h : budget.Expenses ≠ []) :
    exportExpensesToCSV true budget =
      ⟨["Expenses exported to CSV successfully!\n".toList],
        some ("expenses.csv".toList,
          csvWrite ["Name".toList, "Price".toList, "Category".toList, "Date".toList] ++
            budget.Expenses.flatMap fun e =>
              csvWrite [e.Name, FormatFloat e.Price 2, e.Category, e.Date.Format])⟩ := by
  have hlen : ¬ budget.Expenses.length = 0 := by simpa [List.length_eq_zero] using h
  simp only [exportExpensesToCSV, hlen, if_false, if_true]
  rw [forRange_concat_each]

theorem generateFinancialReport_text (budget : Budget) (h : budget.Expenses ≠ []) :
    generateFinancialReport true budget =
      ⟨["Financial report generated successfully!\n".toList],
        some ("financial_report.txt".toList,
          "Financial Report\n\n".toList ++
          ("Budget Limit: $".toList ++ FormatFloat budget.Limit 2 ++ "\n".toList) ++
          ("Total Expenses: $".toList ++
            FormatFloat (generateFinancialReportVars budget).1 2 ++ "\n".toList) ++
          ("Remaining Budget: $".toList ++
            FormatFloat (generateFinancialReportVars budget).2 2 ++ "\n\n".toList) ++
          "Expenses:\n".toList ++ budget.Expenses.flatMap expenseLine)⟩ := by
  have hlen : ¬ budget.Expenses.length = 0 := by simpa [List.length_eq_zero] using h
  simp only [generateFinancialReport, hlen, if_false, if_true]
  rw [forRange_concat_each]

/-- C10 fails as stated: with one expense in the budget and `os.Create`
failing (its error is ignored), `generateFinancialReport` and
`exportExpensesToCSV` produce no file, and print their success lines. -/
theorem report_and_export_without_file :
    generateFinancialReport false
        ⟨Float64.zero, [⟨"tea".toList, Float64.nearest false 3 2, "food".toList, ⟨0, 0, 0⟩⟩]⟩
      = ⟨["Financial report generated successfully!\n".toList], none⟩ ∧
    exportExpensesToCSV false
        ⟨Float64.zero, [⟨"tea".toList, Float64.nearest false 3 2, "food".toList, ⟨0, 0, 0⟩⟩]⟩
      = ⟨["Expenses exported to CSV successfully!\n".toList], none⟩ := by
  decide

/-- C10, amended: on a budget without expenses `generateFinancialReport` and
`exportExpensesToCSV` create no file and print `No expenses found.`, whether
or not `os.Create` would succeed; chosen from the menu (5 or 6) they leave the
budget as it was, and on a budget without expenses the files too; on a budget
with an expense, when `os.Create` succeeds, each creates its file, the report
with its heading and the CSV file with the header row, followed by one entry
for each expense. -/
theorem empty_ledger_report_and_export (budget : Budget) (created : Bool) :
    (budget.Expenses = [] →
      generateFinancialReport created budget = ⟨["No expenses found.\n".toList], none⟩ ∧
      exportExpensesToCSV created budget = ⟨["No expenses found.\n".toList], none⟩) ∧
    (budget.Expenses ≠ [] → created = true →
      ∃ report csv,
        (generateFinancialReport created budget).file
          = some ("financial_report.txt".toList, report) ∧
        "Financial Report\n\n".toList <+: report ∧
        budget.Expenses.flatMap expenseLine <:+ report ∧
        (exportExpensesToCSV created budget).file = some ("expenses.csv".toList, csv) ∧
        csv = "Name,Price,Category,Date\n".toList ++
          budget.Expenses.flatMap fun e =>
            csvWrite [e.Name, FormatFloat e.Price 2, e.Category, e.Date.Format]) ∧
    (∀ (now : Time) (canCreate : Str → Bool) (reader : Str) (console : List Str)
        (files : FileSystem) (rest : Str),
      ReadString reader = ("5\n".toList, rest) ∨ ReadString reader = ("6\n".toList, rest) →
      ∃ s, mainStep now canCreate ⟨reader, budget, console, files⟩ = .next s ∧
        s.budget = budget ∧ s.reader = rest ∧
        (budget.Expenses = [] →
          s.files = files ∧ s.console = console ++ menuText ++ ["No expenses found.\n".toList])) := by
  refine ⟨?_, ?_, ?_⟩
  · intro h
    simp [generateFinancialReport, exportExpensesToCSV, h]
  · intro h hc
    subst hc
    refine ⟨_, _, by rw [generateFinancialReport_text budget h], ?_, ?_,
      by rw [exportExpensesToCSV_text budget h], ?_⟩
    · simp only [List.append_assoc]
      exact List.prefix_append _ _
    · exact List.suffix_append _ _
    · have : csvWrite ["Name".toList, "Price".toList, "Category".toList, "Date".toList]
          = "Name,Price,Category,Date\n".toList := by decide
      rw [this]
  · intro now canCreate reader console files rest hread
    have t5 : trimNewLine "5\n".toList = "5".toList := by decide
    have t6 : trimNewLine "6\n".toList = "6".toList := by decide
    rcases hread with hread | hread
    · refine ⟨⟨rest, budget, console ++ menuText ++
          (generateFinancialReport (canCreate "financial_report.txt".toList) budget).console,
        createFile files
          (generateFinancialReport (canCreate "financial_report.txt".toList) budget).file⟩,
        ?_, rfl, rfl, ?_⟩
      · simp only [mainStep, hread, t5]
        rw [if_neg (by decide), if_neg (by decide), if_neg (by decide), if_neg (by decide),
          if_pos trivial]
      · intro h
        simp [generateFinancialReport, h, createFile]
    · refine ⟨⟨rest, budget, console ++ menuText ++
          (exportExpensesToCSV (canCreate "expenses.csv".toList) budget).console,
        createFile files (exportExpensesToCSV (canCreate "expenses.csv".toList) budget).file⟩,
        ?_, rfl, rfl, ?_⟩
      · simp only [mainStep, hread, t6]
        rw [if_neg (by decide), if_neg (by decide), if_neg (by decide), if_neg (by decide),
          if_neg (by decide), if_pos trivial]
      · intro h
        simp [exportExpensesToCSV, h, createFile]

/-- C10, instances: the empty budget with `os.Create` failing, and a budget with
one expense with `os.Create` succeeding. -/
theorem empty_ledger_report_and_export_witness :
    (generateFinancialReport false ⟨Float64.zero, []⟩
        = ⟨["No expenses found.\n".toList], none⟩ ∧
      exportExpensesToCSV false ⟨Float64.zero, []⟩ = ⟨["No expenses found.\n".toList], none⟩) ∧
    (∃ report csv,
      (generateFinancialReport true
        ⟨Float64.zero, [⟨"tea".toList, Float64.nearest false 3 2, "food".toList, ⟨0, 0, 0⟩⟩]⟩).file
        = some ("financial_report.txt".toList, report) ∧
      "Financial Report\n\n".toList <+: report ∧
      ([⟨"tea".toList, Float64.nearest false 3 2, "food".toList, ⟨0, 0, 0⟩⟩] :
        List Expense).flatMap expenseLine <:+ report ∧
      (exportExpensesToCSV true
        ⟨Float64.zero, [⟨"tea".toList, Float64.nearest false 3 2, "food".toList, ⟨0, 0, 0⟩⟩]⟩).file
        = some ("expenses.csv".toList, csv) ∧
      csv = "Name,Price,Category,Date\n".toList ++
        ([⟨"tea".toList, Float64.nearest false 3 2, "food".toList, ⟨0, 0, 0⟩⟩] :
          List Expense).flatMap fun e =>
            csvWrite [e.Name, FormatFloat e.Price 2, e.Category, e.Date.Format]) ∧
    (exportExpensesToCSV true
        ⟨Float64.zero, [⟨"tea".toList, Float64.nearest false 3 2, "food".toList, ⟨0, 0, 0⟩⟩]⟩).file
      = some ("expenses.csv".toList,
          "Name,Price,Category,Date\ntea,1.50,food,1970-01-01 00:00:00\n".toList) :=
  ⟨(empty_ledger_report_and_export ⟨Float64.zero, []⟩ false).1 rfl,
   (empty_ledger_report_and_export
      ⟨Float64.zero, [⟨"tea".toList, Float64.nearest false 3 2, "food".toList, ⟨0, 0, 0⟩⟩]⟩
      true).2.1 (by decide) rfl,
   by decide⟩

/-! ## The CSV reader reads back what the CSV writer wrote -/

theorem csvNormalize_cons (c : Char) (t : Str) (h : c ≠ cr) :
    csvNormalize (c :: t) = c :: csvNormalize t := by
  rw [csvNormalize]
  simp [h]

theorem csvNormalize_cr_cons (d : Char) (t : Str) (h : d ≠ lf) :
    csvNormalize (cr :: d :: t) = cr :: csvNormalize (d :: t) := by
  rw [csvNormalize]
  simp [h]

theorem hasCRLF_tail (c : Char) (f : Str) (h : hasCRLF (c :: f) = false) : hasCRLF f = false := by
  cases f with
  | nil => rfl
  | cons d rest =>
    simp only [hasCRLF, Bool.or_eq_false_iff] at h
    exact h.2

theorem hasCRLF_cr_head (d : Char) (f : Str) (h : hasCRLF (cr :: d :: f) = false) : d ≠ lf := by
  intro hd
  subst hd
  simp [hasCRLF] at h

theorem hasCRLF_of_no_cr (s : Str) (h : ∀ c ∈ s, c ≠ cr) : hasCRLF s = false := by
  induction s with
  | nil => rfl
  | cons c rest ih =>
    cases rest with
    | nil => rfl
    | cons d rest' =>
      simp only [hasCRLF, Bool.or_eq_false_iff, decide_eq_false_iff_not]
      refine ⟨fun hc => h c (List.mem_cons_self _ _) hc.1, ?_⟩
      exact ih (fun x hx => h x (List.mem_cons_of_mem _ hx))

/-- The text between the quotes of a quoted field. -/
theorem quoteField_eq (f : Str) :
    quoteField f = dq :: ((f.flatMap fun c => if c = dq then [dq, dq] else [c]) ++ [dq]) := rfl

theorem csvScan_quoted_content (f buf tail : Str) (recs : List (List Str)) (rec : List Str)
    (h : hasCRLF f = false) :
    csvScan (csvNormalize ((f.flatMap fun c => if c = dq then [dq, dq] else [c]) ++ dq :: tail))
        (.quoted buf) recs rec
      = csvScan (csvNormalize tail) (.quoteSeen (buf ++ f)) recs rec := by
  induction f generalizing buf with
  | nil =>
    simp only [List.flatMap_nil, List.nil_append, List.append_nil]
    rw [csvNormalize_cons dq tail (by decide), csvScan, if_pos rfl]
  | cons c f' ih =>
    have hf' : hasCRLF f' = false := hasCRLF_tail c f' h
    simp only [List.flatMap_cons, List.append_assoc]
    by_cases hq : c = dq
    · subst hq
      simp only [if_true, List.cons_append, List.nil_append]
      rw [csvNormalize_cons dq _ (by decide), csvNormalize_cons dq _ (by decide)]
      rw [csvScan, if_pos rfl, csvScan, if_pos rfl, ih _ hf']
      simp
    · simp only [hq, if_false, List.cons_append, List.nil_append]
      by_cases hc : c = cr
      · subst hc
        cases f' with
        | nil =>
          simp only [List.flatMap_nil, List.nil_append]
          rw [csvNormalize_cr_cons dq tail (by decide), csvScan, if_neg (by decide)]
          rw [csvNormalize_cons dq tail (by decide), csvScan, if_pos rfl]
        | cons d f'' =>
          have hd : d ≠ lf := hasCRLF_cr_head d f'' h
          have key := ih (buf ++ [cr]) hf'
          simp only [List.flatMap_cons, List.append_assoc] at key ⊢
          by_cases hdq : d = dq
          · subst hdq
            simp only [if_true, List.cons_append, List.nil_append] at key ⊢
            rw [csvNormalize_cr_cons dq _ (by decide), csvScan, if_neg (by decide), key]
          · simp only [hdq, if_false, List.cons_append, List.nil_append] at key ⊢
            rw [csvNormalize_cr_cons d _ hd, csvScan, if_neg (by decide), key]
      · rw [csvNormalize_cons c _ hc, csvScan, if_neg hq, ih _ hf']
        simp

theorem csvScan_unquoted_content (f buf tail : Str) (recs : List (List Str)) (rec : List Str)
    (h : ∀ c ∈ f, c ≠ lf ∧ c ≠ cr ∧ c ≠ dq ∧ c ≠ ',') :
    csvScan (csvNormalize (f ++ tail)) (.unquoted buf) recs rec
      = csvScan (csvNormalize tail) (.unquoted (buf ++ f)) recs rec := by
  induction f generalizing buf with
  | nil => simp
  | cons c f' ih =>
    obtain ⟨h1, h2, h3, h4⟩ := h c (List.mem_cons_self _ _)
    simp only [List.cons_append]
    rw [csvNormalize_cons c _ h2, csvScan, if_neg h3, if_neg h4, if_neg h1,
      ih _ (fun x hx => h x (List.mem_cons_of_mem _ hx))]
    simp

theorem fieldNeedsQuotes_false (f : Str) (h : fieldNeedsQuotes f = false) :
    ∀ c ∈ f, c ≠ lf ∧ c ≠ cr ∧ c ≠ dq ∧ c ≠ ',' := by
  cases f with
  | nil => intro c hc; cases hc
  | cons a rest =>
    simp only [fieldNeedsQuotes] at h
    split at h
    · cases h
    · split at h
      · cases h
      · rename_i hany
        intro c hc
        have hno : ¬ (c = lf ∨ c = cr ∨ c = dq ∨ c = ',') := by
          intro hor
          apply hany
          rw [List.any_eq_true]
          exact ⟨c, hc, by simpa using hor⟩
        refine ⟨fun e => hno (Or.inl e), fun e => hno (Or.inr (Or.inl e)),
          fun e => hno (Or.inr (Or.inr (Or.inl e))), fun e => hno (Or.inr (Or.inr (Or.inr e)))⟩

/-- A written field followed by a comma is read back as that field. -/
theorem csvScan_field_comma (f t : Str) (recs : List (List Str)) (rec : List Str)
    (h : hasCRLF f = false) :
    csvScan (csvNormalize (writeField f ++ ',' :: t)) .fieldStart recs rec
      = csvScan (csvNormalize t) .fieldStart recs (rec ++ [f]) := by
  unfold writeField
  by_cases hq : fieldNeedsQuotes f = true
  · rw [if_pos hq, quoteField_eq]
    simp only [List.cons_append, List.append_assoc, List.singleton_append, List.nil_append]
    rw [csvNormalize_cons dq _ (by decide), csvScan, if_pos rfl,
      csvScan_quoted_content f [] _ recs rec h]
    rw [csvNormalize_cons ',' t (by decide), csvScan, if_neg (by decide), if_pos rfl]
    simp
  · rw [if_neg hq]
    have hch := fieldNeedsQuotes_false f (by simpa using hq)
    cases f with
    | nil =>
      simp only [List.nil_append]
      rw [csvNormalize_cons ',' t (by decide), csvScan, if_neg (by decide), if_pos rfl]
    | cons c f' =>
      obtain ⟨h1, h2, h3, h4⟩ := hch c (List.mem_cons_self _ _)
      simp only [List.cons_append]
      rw [csvNormalize_cons c _ h2, csvScan, if_neg h3, if_neg h4, if_neg h1,
        csvScan_unquoted_content f' [c] _ recs rec (fun x hx => hch x (List.mem_cons_of_mem _ hx))]
      rw [csvNormalize_cons ',' t (by decide), csvScan, if_neg (by decide), if_pos rfl]
      simp

/-- A written field followed by a line feed is read back as the last field of
its record. -/
theorem csvScan_field_lf (f t : Str) (recs : List (List Str)) (rec : List Str)
    (h : hasCRLF f = false) :
    csvScan (csvNormalize (writeField f ++ lf :: t)) .fieldStart recs rec
      = (endRecord recs (rec ++ [f])).bind fun rs => csvScan (csvNormalize t) .recordStart rs [] := by
  unfold writeField
  by_cases hq : fieldNeedsQuotes f = true
  · rw [if_pos hq, quoteField_eq]
    simp only [List.cons_append, List.append_assoc, List.singleton_append, List.nil_append]
    rw [csvNormalize_cons dq _ (by decide), csvScan, if_pos rfl,
      csvScan_quoted_content f [] _ recs rec h]
    rw [csvNormalize_cons lf t (by decide), csvScan, if_neg (by decide), if_neg (by decide),
      if_pos rfl]
    simp
  · rw [if_neg hq]
    have hch := fieldNeedsQuotes_false f (by simpa using hq)
    cases f with
    | nil =>
      simp only [List.nil_append]
      rw [csvNormalize_cons lf t (by decide), csvScan, if_neg (by decide), if_neg (by decide),
        if_pos rfl]
    | cons c f' =>
      obtain ⟨h1, h2, h3, h4⟩ := hch c (List.mem_cons_self _ _)
      simp only [List.cons_append]
      rw [csvNormalize_cons c _ h2, csvScan, if_neg h3, if_neg h4, if_neg h1,
        csvScan_unquoted_content f' [c] _ recs rec (fun x hx => hch x (List.mem_cons_of_mem _ hx))]
      rw [csvNormalize_cons lf t (by decide), csvScan, if_neg (by decide), if_neg (by decide),
        if_pos rfl]
      simp


theorem csvScan_fields (fs : List Str) (t : Str) (recs : List (List Str)) (rec : List Str)
    (hne : fs ≠ []) (h : ∀ f ∈ fs, hasCRLF f = false) :
    csvScan (csvNormalize (writeFields fs ++ lf :: t)) .fieldStart recs rec
      = (endRecord recs (rec ++ fs)).bind fun rs => csvScan (csvNormalize t) .recordStart rs [] := by
  induction fs generalizing rec with
  | nil => exact absurd rfl hne
  | cons f rest ih =>
    cases rest with
    | nil =>
      simp only [writeFields]
      exact csvScan_field_lf f t recs rec (h f (List.mem_cons_self _ _))
    | cons g rest' =>
      simp only [writeFields, List.append_assoc, List.cons_append]
      rw [csvScan_field_comma f _ recs rec (h f (List.mem_cons_self _ _))]
      rw [ih (rec ++ [f]) (by simp) (fun x hx => h x (List.mem_cons_of_mem _ hx))]
      simp

theorem csvScan_recordStart (c : Char) (cs : Str) (recs : List (List Str)) (rec : List Str)
    (h : c ≠ lf) :
    csvScan (c :: cs) .recordStart recs rec = csvScan (c :: cs) .fieldStart recs [] := by
  rw [csvScan, if_neg h]
  conv_rhs => rw [csvScan]
  by_cases h1 : c = dq
  · simp [h1]
  · by_cases h2 : c = ','
    · simp [h1, h2]
    · simp [h1, h2, h]

theorem csvNormalize_field_head (f t : Str) :
    ∃ c cs, csvNormalize (writeField f ++ ',' :: t) = c :: cs ∧ c ≠ lf := by
  unfold writeField
  by_cases hq : fieldNeedsQuotes f = true
  · rw [if_pos hq, quoteField_eq]
    simp only [List.cons_append]
    exact ⟨dq, _, csvNormalize_cons dq _ (by decide), by decide⟩
  · rw [if_neg hq]
    have hch := fieldNeedsQuotes_false f (by simpa using hq)
    cases f with
    | nil => exact ⟨',', _, csvNormalize_cons ',' _ (by decide), by decide⟩
    | cons c f' =>
      obtain ⟨h1, h2, _, _⟩ := hch c (List.mem_cons_self _ _)
      exact ⟨c, _, csvNormalize_cons c _ h2, h1⟩

theorem csvScan_records (n : Nat) (hn : 2 ≤ n) (todo done : List (List Str))
    (hdone : ∀ r ∈ done, r.length = n)
    (htodo : ∀ r ∈ todo, r.length = n ∧ ∀ f ∈ r, hasCRLF f = false) :
    csvScan (csvNormalize (todo.flatMap csvWrite)) .recordStart done [] = .ok (done ++ todo) := by
  induction todo generalizing done with
  | nil => simp [csvNormalize, csvScan]
  | cons r todo' ih =>
    obtain ⟨hlen, hclean⟩ := htodo r (List.mem_cons_self _ _)
    have hrest : ∀ r ∈ todo', r.length = n ∧ ∀ f ∈ r, hasCRLF f = false :=
      fun x hx => htodo x (List.mem_cons_of_mem _ hx)
    have hend : endRecord done r = .ok (done ++ [r]) := by
      cases done with
      | nil => rfl
      | cons first more =>
        have := hdone first (List.mem_cons_self _ _)
        simp [endRecord, hlen, this]
    match r, hlen, hclean with
    | [], hlen, _ => simp at hlen; omega
    | [_], hlen, _ => simp at hlen; omega
    | f :: g :: r', hlen, hclean =>
      rw [List.flatMap_cons, show csvWrite (f :: g :: r') = writeFields (f :: g :: r') ++ [lf] from rfl]
      simp only [List.append_assoc, List.singleton_append]
      have hhead : ∃ c cs, csvNormalize (writeFields (f :: g :: r') ++
          lf :: List.flatMap todo' csvWrite) = c :: cs ∧ c ≠ lf := by
        simp only [writeFields, List.append_assoc, List.cons_append]
        exact csvNormalize_field_head f _
      obtain ⟨c, cs, hc, hclf⟩ := hhead
      have step := csvScan_fields (f :: g :: r') (List.flatMap todo' csvWrite)
        done [] (by simp) hclean
      rw [hc] at step ⊢
      rw [csvScan_recordStart c cs done [] hclf, step]
      simp only [List.nil_append, hend, Except.bind]
      rw [ih (done ++ [f :: g :: r']) (by
        intro x hx
        rcases List.mem_append.mp hx with hx | hx
        · exact hdone x hx
        · simp at hx; rw [hx]; exact hlen) hrest]
      simp

/-- What `csv.Writer` wrote, `csv.Reader` reads back: records of one length of at
least two fields, none containing CR LF, come back as they were written. -/
theorem ReadAll_csvWrite (n : Nat) (hn : 2 ≤ n) (records : List (List Str))
    (h : ∀ r ∈ records, r.length = n ∧ ∀ f ∈ r, hasCRLF f = false) :
    ReadAll (records.flatMap csvWrite) = .ok records := by
  unfold ReadAll
  rw [csvScan_records n hn records [] (by simp) h]
  simp


/-! ## Formatted prices and dates contain no carriage return -/

theorem noCR_nil : noCR [] = true := rfl

theorem noCR_cons (c : Char) (s : Str) : noCR (c :: s) = (c != cr && noCR s) := rfl

theorem noCR_append (a b : Str) : noCR (a ++ b) = (noCR a && noCR b) := by
  simp [noCR, List.all_append]

theorem hasCRLF_of_noCR (s : Str) (h : noCR s = true) : hasCRLF s = false := by
  apply hasCRLF_of_no_cr
  intro c hc
  have := List.all_eq_true.mp h c hc
  simpa using this

theorem digit_char_ne_cr (k : Nat) (h : k < 10) : (Char.ofNat (48 + k) != cr) = true := by
  interval_cases k <;> decide

theorem decDigitsAux_noCR (fuel n : Nat) (acc : Str) (h : noCR acc = true) :
    noCR (decDigitsAux fuel n acc) = true := by
  induction fuel generalizing n acc with
  | zero => exact h
  | succ fuel ih =>
    have hacc : noCR (Char.ofNat (48 + n % 10) :: acc) = true := by
      rw [noCR_cons, digit_char_ne_cr _ (Nat.mod_lt _ (by decide)), h]; rfl
    simp only [decDigitsAux]
    split
    · exact hacc
    · exact ih _ _ hacc

theorem decDigits_noCR (n : Nat) : noCR (decDigits n) = true :=
  decDigitsAux_noCR _ _ [] rfl

theorem padZeros_noCR (w n : Nat) : noCR (padZeros w (decDigits n)) = true := by
  unfold padZeros
  rw [noCR_append, decDigits_noCR, Bool.and_true]
  apply List.all_eq_true.mpr
  intro c hc
  rw [List.eq_of_mem_replicate hc]
  decide

theorem FormatFloat_noCR (f : Float64) (prec : Nat) : noCR (FormatFloat f prec) = true := by
  cases f with
  | nan => simp only [FormatFloat]; decide
  | inf s => cases s <;> simp only [FormatFloat] <;> decide
  | fin s m e =>
    simp only [FormatFloat, noCR_append, decDigits_noCR, Bool.and_true, Bool.and_eq_true]
    constructor
    · cases s <;> decide
    · split
      · rfl
      · rw [noCR_cons, padZeros_noCR]; decide

theorem Format_noCR (t : Time) : noCR t.Format = true := by
  simp only [Time.Format, appendInt, noCR_append, noCR_cons, padZeros_noCR, Bool.and_true,
    Bool.and_eq_true]
  refine ⟨⟨⟨⟨⟨?_, by decide⟩, by decide⟩, by decide⟩, by decide⟩, by decide⟩
  split <;> decide

/-! ## C1 -/

theorem recordExpense_exportRecord (e : Expense)
    (hprice : (parseFloat (FormatFloat e.Price 2)).1 = e.Price)
    (hdate : timeParse e.Date.Format = some e.Date) :
    recordExpense (exportRecord e) = some e := by
  simp only [exportRecord, recordExpense, hdate, Option.map_some', hprice]

theorem filterMap_recordExpense_export (expenses : List Expense)
    (h : ∀ e ∈ expenses, (parseFloat (FormatFloat e.Price 2)).1 = e.Price ∧
      timeParse e.Date.Format = some e.Date) :
    (expenses.map exportRecord).filterMap recordExpense = expenses := by
  induction expenses with
  | nil => rfl
  | cons e rest ih =>
    obtain ⟨hp, hd⟩ := h e (List.mem_cons_self _ _)
    rw [List.map_cons, List.filterMap_cons, recordExpense_exportRecord e hp hd]
    simp only
    rw [ih (fun x hx => h x (List.mem_cons_of_mem _ hx))]

theorem export_text_eq (created : Bool) (budget : Budget) (text : Str)
    (h : (exportExpensesToCSV created budget).file = some ("expenses.csv".toList, text)) :
    text = List.flatMap
      (["Name".toList, "Price".toList, "Category".toList, "Date".toList] ::
        budget.Expenses.map exportRecord) csvWrite := by
  by_cases hne : budget.Expenses = []
  · simp [exportExpensesToCSV, hne] at h
  · cases created with
    | false => simp [exportExpensesToCSV, hne] at h
    | true =>
      rw [exportExpensesToCSV_text budget hne] at h
      simp only [Option.some.injEq, Prod.mk.injEq, true_and] at h
      rw [← h, List.flatMap_cons]
      congr 1
      induction budget.Expenses with
      | nil => rfl
      | cons e rest ih => simp only [List.flatMap_cons, List.map_cons, ih, exportRecord]

/-- C1, amended: for a budget in which every name and category is free of CR LF,
every price is the value that `parseFloat` reads from its two-decimal rendering
and every date is the time that `time.Parse` reads from its rendering,
importing the file that `exportExpensesToCSV` writes (so `os.Create` succeeded
and the budget has an expense) into a budget without expenses yields exactly
the expenses of the original budget, in order. -/
theorem csv_round_trip (budget : Budget) (text : Str) (reader : Str) (files : FileSystem)
    (limit : Float64) (created : Bool)
    (hexport : (exportExpensesToCSV created budget).file = some ("expenses.csv".toList, text))
    (hopen : openFile files (trimNewLine (ReadString reader).1) = some text)
    (hvalid : ∀ e ∈ budget.Expenses,
      hasCRLF e.Name = false ∧ hasCRLF e.Category = false ∧
      (parseFloat (FormatFloat e.Price 2)).1 = e.Price ∧
      timeParse e.Date.Format = some e.Date) :
    ∃ out, importExpensesFromCSV reader files ⟨limit, []⟩ =
      .ok ((ReadString reader).2, ⟨limit, budget.Expenses⟩, out) := by
  have htext := export_text_eq created budget text hexport
  have hrows : ∀ r ∈ ["Name".toList, "Price".toList, "Category".toList, "Date".toList] ::
      budget.Expenses.map exportRecord, r.length = 4 ∧ ∀ f ∈ r, hasCRLF f = false := by
    intro r hr
    rcases List.mem_cons.mp hr with hr | hr
    · rw [hr]; exact ⟨rfl, by decide⟩
    · obtain ⟨e, he, rfl⟩ := List.mem_map.mp hr
      obtain ⟨hn, hc, _, _⟩ := hvalid e he
      refine ⟨rfl, ?_⟩
      intro f hf
      simp only [exportRecord, List.mem_cons, List.mem_singleton, List.not_mem_nil, or_false] at hf
      rcases hf with rfl | rfl | rfl | rfl
      · exact hn
      · exact hasCRLF_of_noCR _ (FormatFloat_noCR _ _)
      · exact hc
      · exact hasCRLF_of_noCR _ (Format_noCR _)
  have hread : ReadAll text = .ok (["Name".toList, "Price".toList, "Category".toList,
      "Date".toList] :: budget.Expenses.map exportRecord) := by
    rw [htext]
    exact ReadAll_csvWrite 4 (by decide) _ hrows
  obtain ⟨o, ho⟩ := importRecords_four_columns
    (["Name".toList, "Price".toList, "Category".toList, "Date".toList] ::
      budget.Expenses.map exportRecord) ⟨limit, []⟩
    ["Enter the path of the CSV file: ".toList] (fun r hr => (hrows r hr).1)
  have hheader : recordExpense ["Name".toList, "Price".toList, "Category".toList,
      "Date".toList] = none := by decide
  rw [List.filterMap_cons, hheader] at ho
  simp only at ho
  rw [filterMap_recordExpense_export budget.Expenses
    (fun e he => ⟨(hvalid e he).2.2.1, (hvalid e he).2.2.2⟩)] at ho
  refine ⟨o ++ ["Expenses imported from CSV successfully!\n".toList], ?_⟩
  simp only [importExpensesFromCSV, hopen, hread, ho, List.nil_append]

/-- C1, an instance: two expenses, one with a comma in its name, with prices
12.50 and 1234.50 and whole-second UTC dates, come back as they were. -/
theorem csv_round_trip_witness :
    ∃ out, importExpensesFromCSV "expenses.csv\n".toList
        [("expenses.csv".toList,
          "Name,Price,Category,Date\n\"tea, green\",12.50,food,2023-05-01 10:00:00\nrent,1234.50,home,1970-01-01 00:00:00\n".toList)]
        ⟨Float64.zero, []⟩ =
      .ok ([], ⟨Float64.zero,
        [⟨"tea, green".toList, Float64.nearest false 25 2, "food".toList, ⟨1682935200, 0, 0⟩⟩,
         ⟨"rent".toList, Float64.nearest false 2469 2, "home".toList, ⟨0, 0, 0⟩⟩]⟩, out) :=
  csv_round_trip
    ⟨Float64.nearest false 100 1,
      [⟨"tea, green".toList, Float64.nearest false 25 2, "food".toList, ⟨1682935200, 0, 0⟩⟩,
       ⟨"rent".toList, Float64.nearest false 2469 2, "home".toList, ⟨0, 0, 0⟩⟩]⟩
    "Name,Price,Category,Date\n\"tea, green\",12.50,food,2023-05-01 10:00:00\nrent,1234.50,home,1970-01-01 00:00:00\n".toList
    "expenses.csv\n".toList _ Float64.zero true (by decide) (by decide) (by decide)

/-- C1 fails as stated, in three ways.  A price with three decimals, 0.125, is
written as `0.12` and comes back as 0.12.  A date with nanoseconds, as
`time.Now()` gives, comes back without them.  A name containing CR LF comes
back with the CR removed. -/
theorem csv_round_trip_fails :
    (∃ text,
      (exportExpensesToCSV true ⟨Float64.zero,
        [⟨"tea".toList, Float64.nearest false 1 8, "food".toList, ⟨0, 0, 0⟩⟩]⟩).file
        = some ("expenses.csv".toList, text) ∧
      text = "Name,Price,Category,Date\ntea,0.12,food,1970-01-01 00:00:00\n".toList ∧
      importExpensesFromCSV "expenses.csv\n".toList [("expenses.csv".toList, text)]
          ⟨Float64.zero, []⟩
        = .ok ([], ⟨Float64.zero,
            [⟨"tea".toList, Float64.nearest false 12 100, "food".toList, ⟨0, 0, 0⟩⟩]⟩,
            ["Enter the path of the CSV file: ".toList, "Error parsing float value: ".toList,
             "Error parsing date: ".toList, "Expenses imported from CSV successfully!\n".toList]) ∧
      Float64.nearest false 12 100 ≠ Float64.nearest false 1 8) ∧
    (∃ text,
      (exportExpensesToCSV true ⟨Float64.zero,
        [⟨"tea".toList, Float64.nearest false 3 2, "food".toList, ⟨1682935200, 123456789, 0⟩⟩]⟩).file
        = some ("expenses.csv".toList, text) ∧
      importExpensesFromCSV "expenses.csv\n".toList [("expenses.csv".toList, text)]
          ⟨Float64.zero, []⟩
        = .ok ([], ⟨Float64.zero,
            [⟨"tea".toList, Float64.nearest false 3 2, "food".toList, ⟨1682935200, 0, 0⟩⟩]⟩,
            ["Enter the path of the CSV file: ".toList, "Error parsing float value: ".toList,
             "Error parsing date: ".toList, "Expenses imported from CSV successfully!\n".toList])) ∧
    (∃ text,
      (exportExpensesToCSV true ⟨Float64.zero,
        [⟨"a\r\nb".toList, Float64.nearest false 3 2, "food".toList, ⟨0, 0, 0⟩⟩]⟩).file
        = some ("expenses.csv".toList, text) ∧
      importExpensesFromCSV "expenses.csv\n".toList [("expenses.csv".toList, text)]
          ⟨Float64.zero, []⟩
        = .ok ([], ⟨Float64.zero,
            [⟨"a\nb".toList, Float64.nearest false 3 2, "food".toList, ⟨0, 0, 0⟩⟩]⟩,
            ["Enter the path of the CSV file: ".toList, "Error parsing float value: ".toList,
             "Error parsing date: ".toList, "Expenses imported from CSV successfully!\n".toList])) := by
  refine ⟨⟨_, rfl, by decide, by decide, by decide⟩, ⟨_, rfl, by decide⟩, ⟨_, rfl, by decide⟩⟩

end ExpenseTracker
